import Mathlib

/-!
Verification of the smart-turbine dashboard core (src/App.tsx).

The component keeps seven pieces of React state (lines 41-47): the current
wind speed, the three blade angles, three bounded history buffers (power
series, wind-speed series, chart labels), the cumulative energy accumulator
and the wind direction.  A 1-second interval (lines 49-73) generates a new
reading and updates all of them; the manual range input (lines 87-95) sets
only the wind speed.  We embed the state, the tick, and the override as pure
functions over exact rationals (JavaScript numbers are idealised as ℚ, with
toFixed(1) modelled as round-half-up to one decimal), and reachability as
the inductive closure of the two events from the initial state.
-/

/-- The React state of the App component, lines 41-47 of src/App.tsx. -/
structure AppState where
  windSpeed : ℚ
  bladeAngles : List ℚ
  powerData : List ℚ
  windHistory : List ℚ
  labels : List String
  totalEnergy : ℚ
  windDirection : ℤ
deriving DecidableEq

/-- JavaScript x.toFixed(1) converted back to a number: round to the nearest
tenth (half up). -/
def jsToFixed1 (x : ℚ) : ℚ := (⌊x * 10 + 1 / 2⌋ : ℚ) / 10

/-- Line 51: speed = +(Math.random() * 15).toFixed(1), with r the random
draw in [0,1). -/
def genSpeed (r : ℚ) : ℚ := jsToFixed1 (r * 15)

/-- Line 52: direction = Math.floor(Math.random() * 360), with r the random
draw in [0,1). -/
def genDirection (r : ℚ) : ℤ := ⌊r * 360⌋

/-- Line 53: angles = [speed * 2, speed * 2 + 5, speed * 2 - 5]. -/
def bladeAnglesOf (s : ℚ) : List ℚ := [s * 2, s * 2 + 5, s * 2 - 5]

/-- Line 58: the value appended to the power buffer, +(speed * 1.5).toFixed(1). -/
def powerOf (s : ℚ) : ℚ := jsToFixed1 (s * 1.5)

/-- Lines 57-68: append one entry, then if the length exceeds 20 keep only
the last 20 (updated.slice(-20)). -/
def pushCap20 (prev : List α) (x : α) : List α :=
  let updated := prev ++ [x]
  if updated.length > 20 then updated.drop (updated.length - 20) else updated

/-- The last n entries of a list (JavaScript slice(-n) for n ≤ length). -/
def lastN (n : ℕ) (xs : List α) : List α := xs.drop (xs.length - n)

/-- Lines 41-47: the initial state passed to useState. -/
def initState : AppState :=
  ⟨0, [0, 0, 0], [], [], [], 0, 0⟩

/-- Lines 50-70: one execution of the interval callback, with r1 the random
draw behind the speed and r2 the one behind the direction. -/
def tick (r1 r2 : ℚ) (st : AppState) : AppState :=
  let speed := genSpeed r1
  ⟨speed,
   bladeAnglesOf speed,
   pushCap20 st.powerData (powerOf speed),
   pushCap20 st.windHistory speed,
   pushCap20 st.labels "",
   st.totalEnergy + speed * 1.5 / 60,
   genDirection r2⟩

/-- Line 93: the range input onChange handler sets only windSpeed. -/
def applyOverride (v : ℚ) (st : AppState) : AppState :=
  ⟨v, st.bladeAngles, st.powerData, st.windHistory, st.labels,
   st.totalEnergy, st.windDirection⟩

/-- The two events that mutate the state: a timer tick and a manual
slider override. -/
inductive Event where
  | tick (r1 r2 : ℚ)
  | override (v : ℚ)
deriving DecidableEq

/-- Apply one event to the state. -/
def applyEvent : Event → AppState → AppState
  | Event.tick r1 r2, st => tick r1 r2 st
  | Event.override v, st => applyOverride v st

/-- Which events the environment can actually deliver: Math.random() returns
a value in [0,1); the range input (lines 88-91) is constrained to
min 0, max 25, step 0.1. -/
def validEvent : Event → Prop
  | Event.tick r1 r2 => 0 ≤ r1 ∧ r1 < 1 ∧ 0 ≤ r2 ∧ r2 < 1
  | Event.override v => 0 ≤ v ∧ v ≤ 25 ∧ ∃ k : ℕ, v = (k : ℚ) / 10

/-- States reachable from the initial state by valid events. -/
inductive Reachable : AppState → Prop where
  | init : Reachable initState
  | step {st : AppState} {e : Event} :
      Reachable st → validEvent e → Reachable (applyEvent e st)

/-- Run a whole event trace from the initial state. -/
def run (es : List Event) : AppState :=
  es.foldl (fun st e => applyEvent e st) initState

/-- The speeds generated by the tick events of a trace, in order; override
events generate none. -/
def tickSpeeds : List Event → List ℚ
  | [] => []
  | Event.tick r1 _ :: es => genSpeed r1 :: tickSpeeds es
  | Event.override _ :: es => tickSpeeds es

/-- Line 101: the overload banner renders exactly when windSpeed > 20. -/
def overloadWarning (st : AppState) : Bool := decide (st.windSpeed > 20)

/-- Line 75: bladeWarning = bladeAngles.some(a => a > 90). -/
def bladeWarning (st : AppState) : Bool :=
  st.bladeAngles.any (fun a => decide (a > 90))

/-! ### List lemmas about the capped push -/

/-- The capped push is exactly: append, then keep the last 20. -/
theorem pushCap20_eq_lastN (xs : List α) (x : α) :
    pushCap20 xs x = lastN 20 (xs ++ [x]) := by
  simp only [pushCap20, lastN]
  split
  · rfl
  · next h =>
    have h0 : (xs ++ [x]).length - 20 = 0 := by
      simp only [List.length_append, List.length_singleton] at h ⊢
      omega
    rw [h0, List.drop_zero]

/-- Length of the capped push. -/
theorem length_pushCap20 (xs : List α) (x : α) :
    (pushCap20 xs x).length = min (xs.length + 1) 20 := by
  rw [pushCap20_eq_lastN]
  simp only [lastN, List.length_drop, List.length_append, List.length_singleton]
  omega

/-- Keeping the last 20, appending one element and keeping the last 20 again
is the same as appending first and keeping the last 20 once. -/
theorem lastN_twenty_snoc (xs : List α) (y : α) :
    lastN 20 (lastN 20 xs ++ [y]) = lastN 20 (xs ++ [y]) := by
  simp only [lastN, List.length_append, List.length_drop, List.length_singleton]
  rcases le_or_lt xs.length 20 with h | h
  · have h0 : xs.length - 20 = 0 := by omega
    rw [h0, List.drop_zero]
    simp only [Nat.sub_zero]
  · have h2 : xs.length - (xs.length - 20) = 20 := by omega
    rw [h2]
    have h1 : 20 + 1 - 20 = 1 := by omega
    rw [h1]
    have h3 : (1 : ℕ) ≤ (xs.drop (xs.length - 20)).length := by
      simp only [List.length_drop]; omega
    rw [List.drop_append_of_le_length h3, List.drop_drop]
    have h4 : xs.length + 1 - 20 ≤ xs.length := by omega
    rw [List.drop_append_of_le_length h4]
    have h5 : xs.length - 20 + 1 = xs.length + 1 - 20 := by omega
    rw [h5]

/-! ### Claim C1: the three buffers keep equal length, at most 20 -/

/-- Claim C1: in every reachable state the power, wind and label buffers
have equal length, and that common length is at most 20. -/
theorem buffers_equal_length_le_20 (st : AppState) (h : Reachable st) :
    st.powerData.length = st.windHistory.length ∧
    st.windHistory.length = st.labels.length ∧
    st.labels.length ≤ 20 := by
  induction h with
  | init => simp [initState]
  | @step st e hst hv ih =>
    obtain ⟨ih1, ih2, ih3⟩ := ih
    cases e with
    | tick r1 r2 =>
      simp only [applyEvent, tick, length_pushCap20]
      omega
    | override v =>
      simpa only [applyEvent, applyOverride] using ⟨ih1, ih2, ih3⟩

/-- Witness for C1 at the initial state. -/
theorem buffers_equal_length_le_20_witness :
    Reachable initState ∧
    (initState.powerData.length = initState.windHistory.length ∧
     initState.windHistory.length = initState.labels.length ∧
     initState.labels.length ≤ 20) :=
  ⟨Reachable.init, buffers_equal_length_le_20 initState Reachable.init⟩

/-! ### Trace lemmas for the history buffers -/

/-- tickSpeeds distributes over trace concatenation. -/
theorem tickSpeeds_append (a b : List Event) :
    tickSpeeds (a ++ b) = tickSpeeds a ++ tickSpeeds b := by
  induction a with
  | nil => rfl
  | cons e es ih => cases e <;> simp [tickSpeeds, ih]

/-- Running a trace extended by one event applies that event last. -/
theorem run_append_singleton (es : List Event) (e : Event) :
    run (es ++ [e]) = applyEvent e (run es) := by
  simp [run, List.foldl_append]

/-- After any trace, each buffer holds exactly the last 20 entries produced
by the tick events of the trace: the speeds for the wind buffer, the rounded
powers for the power buffer, and one empty string per tick for the labels. -/
theorem run_buffers (es : List Event) :
    (run es).windHistory = lastN 20 (tickSpeeds es) ∧
    (run es).powerData = lastN 20 ((tickSpeeds es).map powerOf) ∧
    (run es).labels = lastN 20 (List.replicate (tickSpeeds es).length "") := by
  induction es using List.reverseRecOn with
  | nil => simp [run, initState, tickSpeeds, lastN]
  | append_singleton es e ih =>
    obtain ⟨ih1, ih2, ih3⟩ := ih
    rw [run_append_singleton, tickSpeeds_append]
    cases e with
    | tick r1 r2 =>
      simp only [applyEvent, tick, tickSpeeds]
      refine ⟨?_, ?_, ?_⟩
      · rw [ih1, pushCap20_eq_lastN, lastN_twenty_snoc]
      · rw [ih2, pushCap20_eq_lastN, lastN_twenty_snoc]
        rw [List.map_append]
        rfl
      · rw [ih3, pushCap20_eq_lastN, lastN_twenty_snoc]
        rw [List.length_append]
        rw [List.length_cons, List.length_nil]
        rw [List.replicate_succ' ((tickSpeeds es).length + 0)]
        simp only [Nat.add_zero]
    | override v =>
      simp only [applyEvent, applyOverride, tickSpeeds, List.append_nil]
      exact ⟨ih1, ih2, ih3⟩

/-! ### Claim C2: FIFO eviction keeps the most recent 20 entries -/

/-- Claim C2: after a trace with more than 20 ticks, each buffer contains
exactly the entries produced by the most recent 20 ticks, oldest first: the
wind buffer holds the last 20 generated speeds, the power buffer the last 20
rounded powers, the label buffer 20 empty strings, and each has length 20. -/
theorem buffers_fifo_most_recent_20 (es : List Event)
    (h : 20 < (tickSpeeds es).length) :
    (run es).windHistory =
      (tickSpeeds es).drop ((tickSpeeds es).length - 20) ∧
    (run es).powerData =
      ((tickSpeeds es).map powerOf).drop ((tickSpeeds es).length - 20) ∧
    (run es).labels = List.replicate 20 "" ∧
    (run es).windHistory.length = 20 := by
  obtain ⟨h1, h2, h3⟩ := run_buffers es
  refine ⟨h1, ?_, ?_, ?_⟩
  · rw [h2]
    simp only [lastN, List.length_map]
  · rw [h3]
    simp only [lastN, List.length_replicate, List.drop_replicate]
    congr 1
    omega
  · rw [h1]
    simp only [lastN, List.length_drop]
    omega

/-- Witness for C2 on a trace of 21 ticks. -/
theorem buffers_fifo_most_recent_20_witness :
    20 < (tickSpeeds (List.replicate 21 (Event.tick 0 0))).length ∧
    (run (List.replicate 21 (Event.tick 0 0))).windHistory =
      (tickSpeeds (List.replicate 21 (Event.tick 0 0))).drop
        ((tickSpeeds (List.replicate 21 (Event.tick 0 0))).length - 20) :=
  ⟨by decide,
   (buffers_fifo_most_recent_20 (List.replicate 21 (Event.tick 0 0))
     (by decide)).1⟩

/-! ### Range facts about the generated readings -/

/-- The generated speed is non-negative when the draw is. -/
theorem genSpeed_nonneg (r : ℚ) (h : 0 ≤ r) : 0 ≤ genSpeed r := by
  unfold genSpeed jsToFixed1
  apply div_nonneg _ (by norm_num)
  have hx : (0 : ℚ) ≤ r * 15 * 10 + 1 / 2 := by nlinarith
  exact_mod_cast Int.floor_nonneg.mpr hx

/-- The generated speed is at most 15 when the draw is below 1. -/
theorem genSpeed_le_15 (r : ℚ) (h : r < 1) : genSpeed r ≤ 15 := by
  unfold genSpeed jsToFixed1
  rw [div_le_iff₀ (by norm_num : (0 : ℚ) < 10)]
  have hlt : ⌊r * 15 * 10 + 1 / 2⌋ < 151 := by
    apply Int.floor_lt.mpr
    push_cast
    nlinarith
  have hle : ⌊r * 15 * 10 + 1 / 2⌋ ≤ 150 := by omega
  calc (⌊r * 15 * 10 + 1 / 2⌋ : ℚ) ≤ 150 := by exact_mod_cast hle
    _ = 15 * 10 := by norm_num

/-- The generated speed has one decimal place: it is a natural number of
tenths. -/
theorem genSpeed_tenths (r : ℚ) (h : 0 ≤ r) :
    ∃ k : ℕ, genSpeed r = (k : ℚ) / 10 := by
  refine ⟨⌊r * 15 * 10 + 1 / 2⌋.toNat, ?_⟩
  unfold genSpeed jsToFixed1
  congr 1
  have hx : (0 : ℚ) ≤ r * 15 * 10 + 1 / 2 := by nlinarith
  have := Int.toNat_of_nonneg (Int.floor_nonneg.mpr hx)
  exact_mod_cast this.symm

/-- The generated direction is non-negative when the draw is. -/
theorem genDirection_nonneg (r : ℚ) (h : 0 ≤ r) : 0 ≤ genDirection r := by
  unfold genDirection
  apply Int.floor_nonneg.mpr
  nlinarith

/-- The generated direction is below 360 when the draw is below 1. -/
theorem genDirection_lt_360 (r : ℚ) (h : r < 1) : genDirection r < 360 := by
  unfold genDirection
  apply Int.floor_lt.mpr
  push_cast
  nlinarith

/-! ### Claim C8: the reading produced by a tick -/

/-- Claim C8: for all random draws in [0,1), a timer tick produces a
windSpeed in [0, 15] that is a whole number of tenths (one decimal place),
and an integer windDirection in [0, 360). -/
theorem tick_reading_ranges (st : AppState) (r1 r2 : ℚ)
    (h1 : 0 ≤ r1) (h2 : r1 < 1) (h3 : 0 ≤ r2) (h4 : r2 < 1) :
    (0 ≤ (tick r1 r2 st).windSpeed ∧ (tick r1 r2 st).windSpeed ≤ 15 ∧
      ∃ k : ℕ, (tick r1 r2 st).windSpeed = (k : ℚ) / 10) ∧
    (0 ≤ (tick r1 r2 st).windDirection ∧
      (tick r1 r2 st).windDirection < 360) :=
  ⟨⟨genSpeed_nonneg r1 h1, genSpeed_le_15 r1 h2, genSpeed_tenths r1 h1⟩,
   genDirection_nonneg r2 h3, genDirection_lt_360 r2 h4⟩

/-- Witness for C8 at draws 1/2 and 1/2 from the initial state. -/
theorem tick_reading_ranges_witness :
    ((0 : ℚ) ≤ 1 / 2 ∧ (1 : ℚ) / 2 < 1) ∧
    ((0 ≤ (tick (1 / 2) (1 / 2) initState).windSpeed ∧
       (tick (1 / 2) (1 / 2) initState).windSpeed ≤ 15 ∧
       ∃ k : ℕ, (tick (1 / 2) (1 / 2) initState).windSpeed = (k : ℚ) / 10) ∧
     (0 ≤ (tick (1 / 2) (1 / 2) initState).windDirection ∧
       (tick (1 / 2) (1 / 2) initState).windDirection < 360)) :=
  ⟨⟨by norm_num, by norm_num⟩,
   tick_reading_ranges initState (1 / 2) (1 / 2)
     (by norm_num) (by norm_num) (by norm_num) (by norm_num)⟩

/-! ### The blade angles stay small on every reachable state -/

/-- In every reachable state each blade angle is at most 35 degrees: tick
speeds are at most 15, so the largest derived angle is 2 * 15 + 5 = 35, and
the override never touches the angles. -/
theorem reachable_blade_angles_le_35 (st : AppState) (h : Reachable st) :
    ∀ a ∈ st.bladeAngles, a ≤ 35 := by
  induction h with
  | init =>
    intro a ha
    simp only [initState, List.mem_cons, List.not_mem_nil, or_false] at ha
    rcases ha with h | h | h <;> rw [h] <;> norm_num
  | @step st e hst hv ih =>
    cases e with
    | tick r1 r2 =>
      obtain ⟨hr0, hr1, -, -⟩ := hv
      have hs : genSpeed r1 ≤ 15 := genSpeed_le_15 r1 hr1
      intro a ha
      simp only [applyEvent, tick, bladeAnglesOf, List.mem_cons,
        List.not_mem_nil, or_false] at ha
      rcases ha with h | h | h <;> rw [h] <;> linarith
    | override v =>
      intro a ha
      exact ih a ha

/-- A state whose blade angles are all at most 35 shows no blade warning. -/
theorem blade_warning_false_of_angles_le (st : AppState)
    (h : ∀ a ∈ st.bladeAngles, a ≤ 35) : bladeWarning st = false := by
  rw [bladeWarning, List.any_eq_false]
  intro a ha
  simp only [decide_eq_true_eq]
  have := h a ha
  intro hgt
  linarith

/-! ### Claim C9: the blade-deviation warning can never fire -/

/-- Claim C9: in every reachable state every blade angle is at most 35
degrees, so the blade-deviation warning is never shown. -/
theorem blade_warning_never_shown (st : AppState) (h : Reachable st) :
    (∀ a ∈ st.bladeAngles, a ≤ 35) ∧ bladeWarning st = false := by
  have h1 := reachable_blade_angles_le_35 st h
  exact ⟨h1, blade_warning_false_of_angles_le st h1⟩

/-- Witness for C9 at the initial state. -/
theorem blade_warning_never_shown_witness :
    Reachable initState ∧
    ((∀ a ∈ initState.bladeAngles, a ≤ 35) ∧
      bladeWarning initState = false) :=
  ⟨Reachable.init, blade_warning_never_shown initState Reachable.init⟩

/-! ### Claim C3: the angles track the speed only through ticks -/

/-- Counterexample to C3 as stated: the state reached by one tick with draws
0 and 0 followed by a manual override to 10 is reachable, its windSpeed is
10, but its bladeAngles are the stale tick values [0, 5, -5], not
[20, 25, 15]. -/
theorem blade_angles_invariant_counterexample :
    ¬ ∀ st : AppState, Reachable st →
        st.bladeAngles = bladeAnglesOf st.windSpeed := by
  intro h
  have hv1 : validEvent (Event.tick 0 0) :=
    ⟨le_refl 0, by norm_num, le_refl 0, by norm_num⟩
  have hv2 : validEvent (Event.override 10) :=
    ⟨by norm_num, by norm_num, 100, by norm_num⟩
  have hr : Reachable
      (applyEvent (Event.override 10) (applyEvent (Event.tick 0 0) initState)) :=
    Reachable.step (Reachable.step Reachable.init hv1) hv2
  have heq := h _ hr
  simp only [applyEvent, applyOverride, tick, bladeAnglesOf, genSpeed,
    jsToFixed1, initState] at heq
  norm_num at heq

/-- Claim C3 amended: immediately after any timer tick the blade angles are
exactly [2s, 2s+5, 2s-5] for s the windSpeed generated by that tick; a
manual override changes windSpeed but leaves the blade angles untouched, so
the relation need not survive an override (nor hold initially). -/
theorem blade_angles_after_tick (st : AppState) (r1 r2 v : ℚ) :
    (tick r1 r2 st).bladeAngles = bladeAnglesOf (tick r1 r2 st).windSpeed ∧
    (applyEvent (Event.override v) st).bladeAngles = st.bladeAngles :=
  ⟨rfl, rfl⟩

/-! ### Claim C4: the overload warning tracks windSpeed > 20 -/

/-- Claim C4: the overload warning is shown iff the current windSpeed is
strictly greater than 20; it is off at exactly 20, and after a manual
override to v it is shown iff v > 20, with no tick in between. -/
theorem overload_warning_iff (st : AppState) (v : ℚ) :
    (overloadWarning st = true ↔ 20 < st.windSpeed) ∧
    (overloadWarning (applyEvent (Event.override v) st) = true ↔ 20 < v) ∧
    overloadWarning (applyEvent (Event.override 20) st) = false := by
  refine ⟨?_, ?_, ?_⟩
  · simp [overloadWarning]
  · simp [overloadWarning, applyEvent, applyOverride]
  · simp [overloadWarning, applyEvent, applyOverride,
      decide_eq_false_iff_not]

/-! ### Claim C5: slider at its maximum of 25 -/

/-- Counterexample to C5 as stated: from the initial state, setting the
slider to 25 leaves the blade angles at [0, 0, 0]; they do not become
[50, 55, 45], because the override writes only windSpeed. -/
theorem slider_max_counterexample :
    Reachable initState ∧
    (applyEvent (Event.override 25) initState).bladeAngles ≠ [50, 55, 45] := by
  refine ⟨Reachable.init, ?_⟩
  intro h
  simp only [applyEvent, applyOverride, initState] at h
  norm_num at h

/-- Claim C5 amended: after setting the slider to 25 in any reachable state,
the overload warning is shown and the blade-deviation warning is not; the
blade angles keep their previous values (never exceeding 35), they do not
become [50, 55, 45]. -/
theorem slider_max_behavior (st : AppState) (h : Reachable st) :
    overloadWarning (applyEvent (Event.override 25) st) = true ∧
    bladeWarning (applyEvent (Event.override 25) st) = false ∧
    (applyEvent (Event.override 25) st).bladeAngles = st.bladeAngles := by
  refine ⟨?_, ?_, rfl⟩
  · simp only [overloadWarning, applyEvent, applyOverride,
      decide_eq_true_eq]
    norm_num
  · exact blade_warning_false_of_angles_le
      (applyEvent (Event.override 25) st)
      (reachable_blade_angles_le_35 st h)

/-- Witness for C5 (amended) at the initial state. -/
theorem slider_max_behavior_witness :
    overloadWarning (applyEvent (Event.override 25) initState) = true ∧
    bladeWarning (applyEvent (Event.override 25) initState) = false ∧
    (applyEvent (Event.override 25) initState).bladeAngles =
      initState.bladeAngles :=
  slider_max_behavior initState Reachable.init

/-! ### Claim C6: the energy accumulator -/

/-- Claim C6: a tick with draws r1, r2 adds exactly
(generated speed × 1.5) / 60 to the energy accumulator, and since the
generated speed is non-negative the accumulator never decreases. -/
theorem energy_tick_increment (st : AppState) (r1 r2 : ℚ) (h : 0 ≤ r1) :
    (tick r1 r2 st).totalEnergy = st.totalEnergy + genSpeed r1 * 1.5 / 60 ∧
    st.totalEnergy ≤ (tick r1 r2 st).totalEnergy := by
  refine ⟨rfl, ?_⟩
  have h0 := genSpeed_nonneg r1 h
  have h1 : 0 ≤ genSpeed r1 * 1.5 / 60 :=
    div_nonneg (mul_nonneg h0 (by norm_num)) (by norm_num)
  show st.totalEnergy ≤ st.totalEnergy + genSpeed r1 * 1.5 / 60
  linarith

/-- Witness for C6 at draws 1/2 and 1/2 from the initial state. -/
theorem energy_tick_increment_witness :
    (0 : ℚ) ≤ 1 / 2 ∧
    ((tick (1 / 2) (1 / 2) initState).totalEnergy =
        initState.totalEnergy + genSpeed (1 / 2) * 1.5 / 60 ∧
      initState.totalEnergy ≤ (tick (1 / 2) (1 / 2) initState).totalEnergy) :=
  ⟨by norm_num, energy_tick_increment initState (1 / 2) (1 / 2) (by norm_num)⟩

/-! ### Claim C7: the blade-deviation warning predicate -/

/-- Claim C7: the blade-deviation warning is shown iff at least one of the
current blade angles is strictly greater than 90 degrees. -/
theorem blade_warning_iff (st : AppState) :
    bladeWarning st = true ↔ ∃ a ∈ st.bladeAngles, 90 < a := by
  simp [bladeWarning, List.any_eq_true]

/-! ### Claim C10: the override writes only windSpeed -/

/-- Claim C10: a manual override to v sets windSpeed to v and leaves the
blade angles, the wind direction, all three history buffers and the energy
accumulator unchanged. -/
theorem override_frame (st : AppState) (v : ℚ) :
    (applyEvent (Event.override v) st).windSpeed = v ∧
    (applyEvent (Event.override v) st).bladeAngles = st.bladeAngles ∧
    (applyEvent (Event.override v) st).windDirection = st.windDirection ∧
    (applyEvent (Event.override v) st).powerData = st.powerData ∧
    (applyEvent (Event.override v) st).windHistory = st.windHistory ∧
    (applyEvent (Event.override v) st).labels = st.labels ∧
    (applyEvent (Event.override v) st).totalEnergy = st.totalEnergy :=
  ⟨rfl, rfl, rfl, rfl, rfl, rfl, rfl⟩
